import Mathlib

set_option maxRecDepth 16000
set_option maxHeartbeats 1600000
set_option allowUnsafeReducibility true
/- The arithmetic of `ℚ` is `@[irreducible]` upstream, which blocks kernel
evaluation of the aggregation pipelines on concrete tables; restoring the
default reducibility for this file lets `decide` evaluate them. -/
attribute [local semireducible] Rat.mul Rat.add Rat.sub Rat.inv Rat.ofScientific

/-!
Shallow embedding of the analytics aggregation pipeline in `utils.py` of the
campaign-dashboard repository.  Tables are lists of records, money is `ℚ`,
`round(x, k)` is `roundTo k`, and pandas timestamps are calendar dates
(time-of-day is irrelevant to every aggregation modelled here: the pipeline
only ever groups by `.dt.date` or by monthly period, and compares min/max).
Randomness (`np.random.*`) is modelled as an explicit stream of draws, and the
wall clock (`datetime.now().date()`) as an explicit `current_date` parameter.
-/

/-- Rounding to `k` decimal places, the model of `round(x, k)` /
`Series.round(k)`.  (Tie-breaking never matters in the developments below;
every concrete value rounded sits away from a half-way tie.) -/
def roundTo (k : ℕ) (x : ℚ) : ℚ := ((round (x * (10 : ℚ) ^ k) : ℤ) : ℚ) / (10 : ℚ) ^ k

/-- A rational that is a whole number of cents (two-decimal value), the shape
of every monetary amount the data generator emits (`round(..., 2)`). -/
def isCents (x : ℚ) : Prop := ∃ n : ℤ, x = (n : ℚ) / 100

/-- Calendar date (proleptic Gregorian). -/
structure Date where
  year : ℕ
  month : ℕ
  day : ℕ
deriving DecidableEq, Repr

/-- Gregorian leap-year test. -/
def isLeapYear (y : ℕ) : Bool := (y % 4 == 0 && y % 100 != 0) || (y % 400 == 0)

/-- Number of days in month `m` of year `y`. -/
def daysInMonth (y m : ℕ) : ℕ :=
  if m = 2 then (if isLeapYear y then 29 else 28)
  else if m = 4 ∨ m = 6 ∨ m = 9 ∨ m = 11 then 30
  else 31

/-- The day after `d`. -/
def Date.nextDay (d : Date) : Date :=
  if d.day < daysInMonth d.year d.month then ⟨d.year, d.month, d.day + 1⟩
  else if d.month < 12 then ⟨d.year, d.month + 1, 1⟩
  else ⟨d.year + 1, 1, 1⟩

/-- The day before `d`. -/
def Date.prevDay (d : Date) : Date :=
  if 1 < d.day then ⟨d.year, d.month, d.day - 1⟩
  else if 1 < d.month then ⟨d.year, d.month - 1, daysInMonth d.year (d.month - 1)⟩
  else ⟨d.year - 1, 12, 31⟩

/-- Calendar addition of `n` days, the model of `date + timedelta(days=n)`. -/
def Date.addDays (d : Date) : ℕ → Date
  | 0 => d
  | n + 1 => (Date.addDays d n).nextDay

/-- Days contributed by the whole months of year `y` before month `m`. -/
def daysBeforeMonth (y m : ℕ) : ℕ :=
  ((List.range (m - 1)).map (fun i => daysInMonth y (i + 1))).sum

/-- Leap days among the years `1, ..., y-1`. -/
def leapDaysBefore (y : ℕ) : ℕ := (y - 1) / 4 - (y - 1) / 100 + (y - 1) / 400

/-- Ordinal day number (days since the epoch of year 1), used to model
subtraction of dates (`(a - b).days`) and chronological comparison. -/
def Date.toOrdinal (d : Date) : ℕ :=
  365 * (d.year - 1) + leapDaysBefore d.year + daysBeforeMonth d.year d.month + d.day

/-- Difference in days between two dates, the model of `(a - b).days`. -/
def Date.diffDays (a b : Date) : ℤ := (a.toOrdinal : ℤ) - (b.toOrdinal : ℤ)

/-- Earliest date of a list (model of the `min` aggregate over a timestamp
column); `none` on the empty list. -/
def minDate (l : List Date) : Option Date :=
  l.foldl (fun acc d =>
    match acc with
    | none => some d
    | some a => some (if d.toOrdinal < a.toOrdinal then d else a)) none

/-- Latest date of a list (model of the `max` aggregate). -/
def maxDate (l : List Date) : Option Date :=
  l.foldl (fun acc d =>
    match acc with
    | none => some d
    | some a => some (if a.toOrdinal < d.toOrdinal then d else a)) none

/-- Monthly period, the model of `pandas.Period('M')` as produced by
`timestamp.dt.to_period('M')`. -/
structure Period where
  year : ℕ
  month : ℕ
deriving DecidableEq, Repr

/-- Monthly period of a date. -/
def Date.toPeriodM (d : Date) : Period := ⟨d.year, d.month⟩

/-- Date part of the last instant of a monthly period: `p.dt.end_time` is one
nanosecond before the first instant of the next month, so its `.dt.date` is
the day before the first day of the next month. -/
def Period.endTimeDate (p : Period) : Date :=
  Date.prevDay (if p.month < 12 then ⟨p.year, p.month + 1, 1⟩ else ⟨p.year + 1, 1, 1⟩)

/-- Last day of the calendar month of a period, as the specification words it
("the last day of that row's calendar month").  Compared against
`Period.endTimeDate`, which is how the code computes it. -/
def lastDayOfMonth (p : Period) : Date := ⟨p.year, p.month, daysInMonth p.year p.month⟩

/-- A date whose month index is a real calendar month. -/
def validMonthDate (d : Date) : Prop := 1 ≤ d.month ∧ d.month ≤ 12

/-- Impression fact record (the columns of `impressions_df` that the
aggregation pipeline reads). -/
structure Impression where
  timestamp : Date
  campaign_id : String
  creative_id : String
  publisher_id : String
  device_type : String
  geo_country : String
  auction_type : String
  bid_price : ℚ
  win_price : ℚ
  impression_outcome : String
deriving DecidableEq, Repr

/-- Click fact record. -/
structure Click where
  click_id : String
  timestamp : Date
  campaign_id : String
  click_cost : ℚ
deriving DecidableEq, Repr

/-- Conversion fact record. -/
structure Conversion where
  conversion_id : String
  timestamp : Date
  campaign_id : String
  conversion_value : ℚ
deriving DecidableEq, Repr

/-- Campaign dimension record. -/
structure Campaign where
  campaign_id : String
  campaign_name : String
  advertiser_id : String
  start_date : Date
  end_date : Date
  budget_total : ℚ
  budget_daily : ℚ
  objective : String
  status : String
deriving DecidableEq, Repr

/-- Advertiser dimension record. -/
structure Advertiser where
  advertiser_id : String
  advertiser_name : String
  industry : String
deriving DecidableEq, Repr

/-- Splitting a character list on a separator, the model of `str.split(sep)`
(written structurally so that the kernel can evaluate it; `String.splitOn`
upstream is defined by well-founded recursion). -/
def splitOnChar (sep : Char) : List Char → List (List Char)
  | [] => [[]]
  | c :: cs =>
    if c = sep then [] :: splitOnChar sep cs
    else
      match splitOnChar sep cs with
      | [] => [[c]]
      | w :: ws => (c :: w) :: ws

/-- Display name of a publisher: `f"Publisher {pub_id.split('_')[1]}"`. -/
def publisherName (pub_id : String) : String :=
  "Publisher " ++ String.mk ((splitOnChar (Char.ofNat 95) pub_id.toList).getD 1 [])

/-- Model of `impressions_df[impressions_df['impression_outcome'] == 'won']`. -/
def wonImpressions (impressions_df : List Impression) : List Impression :=
  impressions_df.filter (fun i => i.impression_outcome == "won")

/-- Distinct group keys of a table under a key function, the model of the keys
a pandas `groupby` produces (output order is irrelevant to every property
proved below). -/
def groupKeys {α κ : Type} [DecidableEq κ] (f : α → κ) (xs : List α) : List κ :=
  (xs.map f).dedup

/-- Output row of `calculate_basic_metrics` (one row per campaign key of the
won-impressions groupby, replicated per matching campaign row by the final
left join; `info` is `none` when no campaign row matches, modelling the
NaN-filled dimension columns of an unmatched left join). -/
structure MetricsRow where
  campaign_id : String
  total_spend_raw : ℚ
  avg_cpm : ℚ
  impressions_served : ℕ
  first_impression : Option Date
  last_impression : Option Date
  spend : ℚ
  ecpm : ℚ
  clicks : ℕ
  click_spend : ℚ
  conversions : ℕ
  conversion_value : ℚ
  ctr : ℚ
  cpc : ℚ
  cpa : ℚ
  roas : ℚ
  conversion_rate : ℚ
  info : Option Campaign
deriving DecidableEq, Repr

/-- Metric row of `calculate_basic_metrics` for one campaign key `cid`, with
the campaign dimension attributes `info` attached by the final join. -/
def basicRowCore (impressions_df : List Impression) (clicks_df : List Click)
    (conversions_df : List Conversion) (cid : String) (info : Option Campaign) :
    MetricsRow :=
  let g := (wonImpressions impressions_df).filter (fun i => i.campaign_id == cid)
  let prices := g.map (fun i => i.win_price)
  let total_spend_raw := roundTo 2 prices.sum
  let avg_cpm := roundTo 2 (prices.sum / (g.length : ℚ))
  let impressions_served := g.length
  let spend := roundTo 2 (total_spend_raw * (impressions_served : ℚ) / 1000)
  let ecpm := roundTo 2 (spend / ((impressions_served : ℚ) / 1000))
  let cg := clicks_df.filter (fun c => c.campaign_id == cid)
  let clicks := cg.length
  let click_spend := roundTo 2 ((cg.map (fun c => c.click_cost)).sum)
  let vg := conversions_df.filter (fun v => v.campaign_id == cid)
  let conversions := vg.length
  let conversion_value := roundTo 2 ((vg.map (fun v => v.conversion_value)).sum)
  let ctr := roundTo 3 ((clicks : ℚ) / (impressions_served : ℚ) * 100)
  let cpc := roundTo 2 (if 0 < clicks then spend / (clicks : ℚ) else 0)
  let cpa := roundTo 2 (if 0 < conversions then spend / (conversions : ℚ) else 0)
  let roas := roundTo 2 (if 0 < spend then conversion_value / spend else 0)
  let conversion_rate :=
    roundTo 3 (if 0 < clicks then (conversions : ℚ) / (clicks : ℚ) * 100 else 0)
  ⟨cid, total_spend_raw, avg_cpm, impressions_served,
    minDate (g.map (fun i => i.timestamp)), maxDate (g.map (fun i => i.timestamp)),
    spend, ecpm, clicks, click_spend, conversions, conversion_value,
    ctr, cpc, cpa, roas, conversion_rate, info⟩

/-- Rows contributed by one campaign key: the left join against
`campaigns_df.set_index('campaign_id')` keeps the metric row (with missing
dimension attributes) when no campaign matches, and replicates it per match
otherwise. -/
def basicRowsFor (impressions_df : List Impression) (clicks_df : List Click)
    (conversions_df : List Conversion) (campaigns_df : List Campaign)
    (cid : String) : List MetricsRow :=
  let cmatches := campaigns_df.filter (fun c => c.campaign_id == cid)
  if cmatches.isEmpty then [basicRowCore impressions_df clicks_df conversions_df cid none]
  else cmatches.map (fun c => basicRowCore impressions_df clicks_df conversions_df cid (some c))

/-- Model of `calculate_basic_metrics` (utils.py): won impressions grouped by
campaign, spend from the batch-level CPM convention, click/conversion
aggregates left-joined with zero fill, ratio metrics with divide-by-zero
guards, campaign attributes joined last. -/
def calculate_basic_metrics (impressions_df : List Impression) (clicks_df : List Click)
    (conversions_df : List Conversion) (campaigns_df : List Campaign) : List MetricsRow :=
  (groupKeys (fun i => i.campaign_id) (wonImpressions impressions_df)).flatMap
    (basicRowsFor impressions_df clicks_df conversions_df campaigns_df)

/-- Output row of `calculate_pacing_analysis`. -/
structure PacingRow where
  campaign_id : String
  campaign_name : String
  budget_total : ℚ
  budget_daily : ℚ
  total_spend : ℚ
  avg_daily_spend : ℚ
  forecasted_spend : ℚ
  budget_spent_pct : ℚ
  time_elapsed_pct : ℚ
  pacing_status : String
  days_active : ℕ
  total_days : ℤ
deriving DecidableEq, Repr

/-- Won impressions of one campaign in the pacing pipeline. -/
def pacingGroup (impressions_df : List Impression) (cid : String) : List Impression :=
  (wonImpressions impressions_df).filter (fun i => i.campaign_id == cid)

/-- Cumulative spend of a campaign in the pacing pipeline: the per-date
groupby sums of `round(win_price / 1000, 2)`, totalled. -/
def pacingSpendTotal (impressions_df : List Impression) (cid : String) : ℚ :=
  let ci := pacingGroup impressions_df cid
  ((groupKeys (fun i => i.timestamp) ci).map (fun d =>
    ((ci.filter (fun i => i.timestamp == d)).map
      (fun i => roundTo 2 (i.win_price / 1000))).sum)).sum

/-- Days with at least one won impression (`len(daily_spend)`). -/
def pacingDaysElapsed (impressions_df : List Impression) (cid : String) : ℕ :=
  (groupKeys (fun i => i.timestamp) (pacingGroup impressions_df cid)).length

/-- Campaign duration in days: `(end_date - start_date).days + 1`. -/
def campaignDays (campaign : Campaign) : ℤ :=
  Date.diffDays campaign.end_date campaign.start_date + 1

/-- Unrounded budget-spent percentage of the pacing pipeline, with the
zero-budget guard. -/
def pacingBudgetSpentPct (impressions_df : List Impression) (campaign : Campaign) : ℚ :=
  if 0 < campaign.budget_total then
    pacingSpendTotal impressions_df campaign.campaign_id / campaign.budget_total * 100
  else 0

/-- Unrounded time-elapsed percentage of the pacing pipeline, with the
zero-duration guard. -/
def pacingTimeElapsedPct (impressions_df : List Impression) (campaign : Campaign) : ℚ :=
  if 0 < campaignDays campaign then
    (pacingDaysElapsed impressions_df campaign.campaign_id : ℚ) /
      (campaignDays campaign : ℚ) * 100
  else 0

/-- The pacing row computed for one campaign (emitted only when the campaign
has won impressions). -/
def pacingRowOf (impressions_df : List Impression) (campaign : Campaign) : PacingRow :=
  let total_spend := pacingSpendTotal impressions_df campaign.campaign_id
  let days_elapsed := pacingDaysElapsed impressions_df campaign.campaign_id
  let budget_spent_pct := pacingBudgetSpentPct impressions_df campaign
  let time_elapsed_pct := pacingTimeElapsedPct impressions_df campaign
  let pacing_status :=
    if budget_spent_pct > time_elapsed_pct + 10 then "ahead"
    else if budget_spent_pct < time_elapsed_pct - 10 then "behind"
    else "on_pace"
  let avg_daily_spend : ℚ :=
    if 0 < days_elapsed then total_spend / (days_elapsed : ℚ) else 0
  let forecasted_spend := avg_daily_spend * (campaignDays campaign : ℚ)
  ⟨campaign.campaign_id, campaign.campaign_name, campaign.budget_total,
    campaign.budget_daily, roundTo 2 total_spend, roundTo 2 avg_daily_spend,
    roundTo 2 forecasted_spend, roundTo 1 budget_spent_pct,
    roundTo 1 time_elapsed_pct, pacing_status, days_elapsed, campaignDays campaign⟩

/-- Pacing rows contributed by one campaign: none when it has no won
impressions (the `continue`), otherwise the single computed row. -/
def pacingRowsFor (impressions_df : List Impression) (campaign : Campaign) :
    List PacingRow :=
  if (pacingGroup impressions_df campaign.campaign_id).isEmpty then []
  else [pacingRowOf impressions_df campaign]

/-- Model of `calculate_pacing_analysis` (utils.py): per-impression spend
`round(win_price / 1000, 2)`, daily spend grouped on the impression date,
budget and time percentages with zero-denominator guards, status from a
±10-point band, and campaigns with no won impressions skipped. -/
def calculate_pacing_analysis (impressions_df : List Impression)
    (campaigns_df : List Campaign) : List PacingRow :=
  campaigns_df.flatMap (pacingRowsFor impressions_df)

/-- Budget-spent percentage recomputed from a pacing row's reported figures
(`total_spend` is stored rounded to two decimals, which is lossless because it
is a sum of two-decimal per-impression spends). -/
def rowBudgetSpentPct (row : PacingRow) : ℚ :=
  if 0 < row.budget_total then row.total_spend / row.budget_total * 100 else 0

/-- Time-elapsed percentage recomputed from a pacing row's reported figures. -/
def rowTimeElapsedPct (row : PacingRow) : ℚ :=
  if 0 < row.total_days then (row.days_active : ℚ) / (row.total_days : ℚ) * 100 else 0

/-- Difference `budget_spent_pct - time_elapsed_pct` of a pacing row. -/
def pacingDiff (row : PacingRow) : ℚ := rowBudgetSpentPct row - rowTimeElapsedPct row

/-- Output row of `calculate_revenue_by_channel`. -/
structure RevenueRow where
  channel : String
  revenue : ℚ
  channel_type : String
deriving DecidableEq, Repr

/-- Per-impression spend used by the revenue/pacing/cash-flow pipelines:
`(win_price * 1 / 1000).round(2)` (CPM converted per row). -/
def impSpend (i : Impression) : ℚ := roundTo 2 (i.win_price * 1 / 1000)

/-- One dimension of the revenue breakdown: group `xs` on a key, sum a spend
column per key, and tag every row with the dimension's `channel_type`. -/
def dimRows {α : Type} (ty : String) (keyOf : α → String) (spendOf : α → ℚ)
    (xs : List α) : List RevenueRow :=
  (groupKeys keyOf xs).map (fun k =>
    ⟨k, ((xs.filter (fun x => keyOf x == k)).map spendOf).sum, ty⟩)

/-- Inner merge of won impressions with `campaigns_df[['campaign_id',
'advertiser_id']]` on `campaign_id`. -/
def mergeCampaigns (won : List Impression) (campaigns_df : List Campaign) :
    List (Impression × Campaign) :=
  won.flatMap (fun i =>
    (campaigns_df.filter (fun c => c.campaign_id == i.campaign_id)).map (fun c => (i, c)))

/-- Second hop of the industry join: inner merge with
`advertisers_df[['advertiser_id', 'industry']]` on `advertiser_id`. -/
def mergeAdvertisers (merged : List (Impression × Campaign))
    (advertisers_df : List Advertiser) : List (Impression × Campaign × Advertiser) :=
  merged.flatMap (fun p =>
    (advertisers_df.filter (fun a => a.advertiser_id == p.2.advertiser_id)).map
      (fun a => (p.1, p.2, a)))

/-- Model of `calculate_revenue_by_channel` (utils.py): per-impression spend,
grouped independently by device type, auction type, geo country, and (after a
two-hop inner merge) advertiser industry, concatenated into one long table. -/
def calculate_revenue_by_channel (impressions_df : List Impression)
    (campaigns_df : List Campaign) (advertisers_df : List Advertiser) :
    List RevenueRow :=
  let won := wonImpressions impressions_df
  let device_revenue := dimRows "device" (fun i => i.device_type) impSpend won
  let auction_revenue := dimRows "auction" (fun i => i.auction_type) impSpend won
  let geo_revenue := dimRows "geo" (fun i => i.geo_country) impSpend won
  let merged2 := mergeAdvertisers (mergeCampaigns won campaigns_df) advertisers_df
  let industry_revenue :=
    dimRows "industry" (fun t => t.2.2.industry) (fun t => impSpend t.1) merged2
  device_revenue ++ auction_revenue ++ geo_revenue ++ industry_revenue

/-- Sum of the `revenue` column over the rows of one `channel_type`. -/
def revenueTotal (rows : List RevenueRow) (ty : String) : ℚ :=
  ((rows.filter (fun r => r.channel_type == ty)).map (fun r => r.revenue)).sum

/-- Total per-impression won spend of an impression table. -/
def totalWonSpend (impressions_df : List Impression) : ℚ :=
  ((wonImpressions impressions_df).map impSpend).sum

/-- Per-won-impression enrichment computed by `calculate_margin_analysis`; the
uniform 70-80% draw for row `n` of the won-impression frame is `draw n`. -/
structure WonMargin where
  imp : Impression
  buy_side_cost : ℚ
  sell_side_revenue : ℚ
  margin : ℚ
  margin_pct : ℚ
deriving DecidableEq, Repr

/-- Output row of `calculate_margin_analysis`. -/
structure MarginRow where
  campaign_id : String
  total_buy_cost : ℚ
  total_sell_revenue : ℚ
  total_margin : ℚ
  avg_margin_pct : ℚ
  impressions : ℕ
  margin_per_impression : ℚ
  info : Option Campaign
deriving DecidableEq, Repr

/-- Margin rows of one campaign key.  (Division by zero in `margin_pct`
follows the `ℚ` convention `x / 0 = 0`; the source would produce a NaN there,
but no won impression with `win_price = 0` appears in any statement below.) -/
def marginRowsFor (enriched : List WonMargin) (campaigns_df : List Campaign)
    (cid : String) : List MarginRow :=
  let g := enriched.filter (fun w => w.imp.campaign_id == cid)
  let total_buy_cost := roundTo 2 ((g.map (fun w => w.buy_side_cost)).sum)
  let total_sell_revenue := roundTo 2 ((g.map (fun w => w.sell_side_revenue)).sum)
  let total_margin := roundTo 2 ((g.map (fun w => w.margin)).sum)
  let avg_margin_pct := roundTo 2 ((g.map (fun w => w.margin_pct)).sum / (g.length : ℚ))
  let impressions := g.length
  let margin_per_impression := roundTo 4 (total_margin / (impressions : ℚ))
  let mk : Option Campaign → MarginRow := fun info =>
    ⟨cid, total_buy_cost, total_sell_revenue, total_margin, avg_margin_pct,
      impressions, margin_per_impression, info⟩
  let cmatches := campaigns_df.filter (fun c => c.campaign_id == cid)
  if cmatches.isEmpty then [mk none] else cmatches.map (fun c => mk (some c))

/-- Model of `calculate_margin_analysis` (utils.py): an unseeded uniform
70-80% draw per won impression (`draw` is the stream of draws, indexed by row
position) gives a synthetic buy-side cost; margins are aggregated per
campaign and campaign attributes joined last. -/
def calculate_margin_analysis (impressions_df : List Impression)
    (campaigns_df : List Campaign) (draw : ℕ → ℚ) : List MarginRow :=
  let won := wonImpressions impressions_df
  let enriched := won.enum.map (fun p =>
    let buy := roundTo 2 (p.2.win_price * draw p.1)
    let sell := p.2.win_price
    let m := roundTo 2 (sell - buy)
    (⟨p.2, buy, sell, m, roundTo 2 (m / sell * 100)⟩ : WonMargin))
  (groupKeys (fun w => w.imp.campaign_id) enriched).flatMap
    (fun cid => marginRowsFor enriched campaigns_df cid)

/-- Aging bucket of `calculate_cash_flow_analysis`:
`'current' if x <= 0 else ('30_days' if x <= 30 else ('60_days' if x <= 60
else '90_plus_days'))`. -/
def agingCategory (x : ℤ) : String :=
  if x ≤ 0 then "current"
  else if x ≤ 30 then "30_days"
  else if x ≤ 60 then "60_days"
  else "90_plus_days"

/-- Output row of the receivables table of `calculate_cash_flow_analysis`. -/
structure ReceivableRow where
  advertiser_id : String
  month_year : Period
  spend : ℚ
  advertiser_name : String
  due_date : Date
  days_outstanding : ℤ
  aging_category : String
  payment_status : String
  outstanding_amount : ℚ
deriving DecidableEq, Repr

/-- Output row of the payables table of `calculate_cash_flow_analysis`. -/
structure PayableRow where
  publisher_id : String
  month_year : Period
  publisher_payout : ℚ
  publisher_name : String
  due_date : Date
  days_outstanding : ℤ
  aging_category : String
  payment_status : String
  outstanding_amount : ℚ
deriving DecidableEq, Repr

/-- Receivables before the simulated aging columns: per-impression spend of
the campaign-merged won impressions, grouped by (advertiser, month), inner
merged with the advertiser names.  Tuple: (advertiser_id, month, spend,
advertiser_name). -/
def recvBaseOf (impressions_df : List Impression) (campaigns_df : List Campaign)
    (advertisers_df : List Advertiser) : List (String × Period × ℚ × String) :=
  let merged := mergeCampaigns (wonImpressions impressions_df) campaigns_df
  (groupKeys (fun p => (p.2.advertiser_id, p.1.timestamp.toPeriodM)) merged).flatMap
    (fun k =>
      let spend := ((merged.filter (fun p =>
        (p.2.advertiser_id, p.1.timestamp.toPeriodM) == k)).map
          (fun p => impSpend p.1)).sum
      (advertisers_df.filter (fun a => a.advertiser_id == k.1)).map
        (fun a => (k.1, k.2, spend, a.advertiser_name)))

/-- One receivables row from an (index, base-tuple) pair: due 45 days after
month end, days outstanding against `current_date`, aging bucket, sampled
payment status of the row index. -/
def receivableRowOf (current_date : Date) (recvStatus : ℕ → String)
    (p : ℕ × (String × Period × ℚ × String)) : ReceivableRow :=
  let due := (Period.endTimeDate p.2.2.1).addDays 45
  let days : ℤ := Date.diffDays current_date due
  let status := recvStatus p.1
  ⟨p.2.1, p.2.2.1, p.2.2.2.1, p.2.2.2.2, due, days, agingCategory days, status,
    roundTo 2 (if status == "outstanding" then p.2.2.2.1 else 0)⟩

/-- Receivables table: one row per (advertiser, month) group of the base. -/
def receivablesOf (impressions_df : List Impression) (campaigns_df : List Campaign)
    (advertisers_df : List Advertiser) (current_date : Date)
    (recvStatus : ℕ → String) : List ReceivableRow :=
  (recvBaseOf impressions_df campaigns_df advertisers_df).enum.map
    (receivableRowOf current_date recvStatus)

/-- Won impressions with their simulated publisher payout
(`(spend * uniform(0.7, 0.8)).round(2)`, the draw of row `n` being
`payoutShare n`). -/
def withPayoutOf (impressions_df : List Impression) (payoutShare : ℕ → ℚ) :
    List (Impression × ℚ) :=
  (wonImpressions impressions_df).enum.map (fun p =>
    (p.2, roundTo 2 (impSpend p.2 * payoutShare p.1)))

/-- Payables before the simulated aging columns: payout grouped by
(publisher, month) with the derived publisher display name.  Tuple:
(publisher_id, month, payout, publisher_name). -/
def payBaseOf (impressions_df : List Impression) (payoutShare : ℕ → ℚ) :
    List (String × Period × ℚ × String) :=
  let withPayout := withPayoutOf impressions_df payoutShare
  (groupKeys (fun q => (q.1.publisher_id, q.1.timestamp.toPeriodM)) withPayout).map
    (fun k =>
      let payout := ((withPayout.filter (fun q =>
        (q.1.publisher_id, q.1.timestamp.toPeriodM) == k)).map (fun q => q.2)).sum
      (k.1, k.2, payout, publisherName k.1))

/-- One payables row from an (index, base-tuple) pair: due 30 days after
month end, same aging bucketing, sampled payment status of the row index. -/
def payableRowOf (current_date : Date) (payStatus : ℕ → String)
    (p : ℕ × (String × Period × ℚ × String)) : PayableRow :=
  let due := (Period.endTimeDate p.2.2.1).addDays 30
  let days : ℤ := Date.diffDays current_date due
  let status := payStatus p.1
  ⟨p.2.1, p.2.2.1, p.2.2.2.1, p.2.2.2.2, due, days, agingCategory days, status,
    roundTo 2 (if status == "outstanding" then p.2.2.2.1 else 0)⟩

/-- Payables table: one row per (publisher, month) group of the base. -/
def payablesOf (impressions_df : List Impression) (payoutShare : ℕ → ℚ)
    (current_date : Date) (payStatus : ℕ → String) : List PayableRow :=
  (payBaseOf impressions_df payoutShare).enum.map
    (payableRowOf current_date payStatus)

/-- Model of `calculate_cash_flow_analysis` (utils.py).  The wall clock
(`datetime.now().date()`) is the explicit `current_date`; `payoutShare n` is
the uniform 70-80% draw for won-impression row `n`; `recvStatus`/`payStatus`
give the sampled payment status for receivable/payable row `n`. -/
def calculate_cash_flow_analysis (impressions_df : List Impression)
    (campaigns_df : List Campaign) (advertisers_df : List Advertiser)
    (current_date : Date) (payoutShare : ℕ → ℚ)
    (recvStatus : ℕ → String) (payStatus : ℕ → String) :
    List ReceivableRow × List PayableRow :=
  (receivablesOf impressions_df campaigns_df advertisers_df current_date recvStatus,
    payablesOf impressions_df payoutShare current_date payStatus)

/-- Sum of `win_price` over the won impressions of one campaign. -/
def winPriceSum (impressions_df : List Impression) (cid : String) : ℚ :=
  (((wonImpressions impressions_df).filter (fun i => i.campaign_id == cid)).map
    (fun i => i.win_price)).sum

/-- Count of the won impressions of one campaign. -/
def wonCount (impressions_df : List Impression) (cid : String) : ℕ :=
  ((wonImpressions impressions_df).filter (fun i => i.campaign_id == cid)).length

/-- Intended bucket semantics of the aging classifier: inclusive upper bounds
at 0, 30 and 60, with everything from 61 days outstanding in `90_plus_days`. -/
def agingSpec (d : ℤ) (cat : String) : Prop :=
  (d ≤ 0 → cat = "current") ∧
  (0 < d → d ≤ 30 → cat = "30_days") ∧
  (30 < d → d ≤ 60 → cat = "60_days") ∧
  (60 < d → cat = "90_plus_days")

/-- The five source tables as an explicit heap, used to express the frame
property of the aggregation functions: every `calculate_*` function filters
its inputs into fresh frames (`.copy()`) and writes only to those fresh
frames, so the heap bindings of the source tables after a call are the heap
bindings before it. -/
structure Heap where
  impressions : List Impression
  clicks : List Click
  conversions : List Conversion
  campaigns : List Campaign
  advertisers : List Advertiser
deriving DecidableEq, Repr

/-- Heap-passing form of `calculate_basic_metrics`: the result, paired with
the heap after the call. -/
def basicMetricsHeap (h : Heap) : List MetricsRow × Heap :=
  (calculate_basic_metrics h.impressions h.clicks h.conversions h.campaigns, h)

/-- Heap-passing form of `calculate_revenue_by_channel`. -/
def revenueByChannelHeap (h : Heap) : List RevenueRow × Heap :=
  (calculate_revenue_by_channel h.impressions h.campaigns h.advertisers, h)

/-- Heap-passing form of `calculate_margin_analysis`. -/
def marginAnalysisHeap (h : Heap) (draw : ℕ → ℚ) : List MarginRow × Heap :=
  (calculate_margin_analysis h.impressions h.campaigns draw, h)

/-- Heap-passing form of `calculate_pacing_analysis`. -/
def pacingAnalysisHeap (h : Heap) : List PacingRow × Heap :=
  (calculate_pacing_analysis h.impressions h.campaigns, h)

/-- Heap-passing form of `calculate_cash_flow_analysis`. -/
def cashFlowHeap (h : Heap) (current_date : Date) (payoutShare : ℕ → ℚ)
    (recvStatus payStatus : ℕ → String) :
    (List ReceivableRow × List PayableRow) × Heap :=
  (calculate_cash_flow_analysis h.impressions h.campaigns h.advertisers
    current_date payoutShare recvStatus payStatus, h)

/-! Concrete tables used to instantiate the theorems below.  Values follow
the shapes the data generator emits (ids like `CAMP_...`, `PUB_...`,
two-decimal prices). -/

/-- A won impression of campaign `CAMP_1` at 1.23 CPM. -/
def exImpA : Impression :=
  ⟨⟨2023, 5, 1⟩, "CAMP_1", "CREAT_00000001", "PUB_0001", "desktop", "US", "open",
    2, 123/100, "won"⟩

/-- A won impression of campaign `CAMP_1` at 2.00 CPM. -/
def exImpB : Impression :=
  ⟨⟨2023, 5, 2⟩, "CAMP_1", "CREAT_00000001", "PUB_0001", "mobile", "CA", "PMP",
    3, 2, "won"⟩

/-- A won impression of campaign `CAMP_1` at 1.00 CPM. -/
def exImpC : Impression :=
  ⟨⟨2023, 5, 1⟩, "CAMP_1", "CREAT_00000002", "PUB_0002", "tablet", "US", "open",
    2, 1, "won"⟩

/-- A lost impression of campaign `CAMP_2` (carries no spend). -/
def exImpLost : Impression :=
  ⟨⟨2023, 5, 3⟩, "CAMP_2", "CREAT_00000003", "PUB_0001", "desktop", "UK", "open",
    2, 150/100, "lost"⟩

/-- Campaign `CAMP_1`: 10-day flight, 10,000 total budget. -/
def exCampaign1 : Campaign :=
  ⟨"CAMP_1", "Acme - Launch", "ADV_0001", ⟨2023, 5, 1⟩, ⟨2023, 5, 10⟩,
    10000, 1000, "awareness", "active"⟩

/-- Campaign `CAMP_2`: has budget but no won impressions in the examples. -/
def exCampaign2 : Campaign :=
  ⟨"CAMP_2", "Globex - Retarget", "ADV_0002", ⟨2023, 5, 1⟩, ⟨2023, 5, 31⟩,
    5000, 200, "retargeting", "active"⟩

/-- Advertiser `ADV_0001`. -/
def exAdvertiser1 : Advertiser := ⟨"ADV_0001", "Acme Corp", "E-commerce"⟩

/-- Advertiser `ADV_0002`. -/
def exAdvertiser2 : Advertiser := ⟨"ADV_0002", "Globex Inc", "Finance"⟩

/-- A click on campaign `CAMP_1`. -/
def exClick : Click := ⟨"CLK_1", ⟨2023, 5, 1⟩, "CAMP_1", 123/100000⟩

/-- Three won impressions of `CAMP_1` on three distinct days whose spends are
2000, 2000 and 1000: the pacing scenario of the specification (10,000 budget,
10-day flight, 5,000 spent in 3 days). -/
def exPacingImps : List Impression :=
  [⟨⟨2023, 5, 1⟩, "CAMP_1", "CREAT_00000001", "PUB_0001", "desktop", "US", "open",
      2000000, 2000000, "won"⟩,
   ⟨⟨2023, 5, 2⟩, "CAMP_1", "CREAT_00000001", "PUB_0001", "desktop", "US", "open",
      2000000, 2000000, "won"⟩,
   ⟨⟨2023, 5, 3⟩, "CAMP_1", "CREAT_00000001", "PUB_0001", "desktop", "US", "open",
      1000000, 1000000, "won"⟩]

/-- Due date of the May-2023 receivables group (month end + 45 days). -/
def exDue45 : Date := (Period.endTimeDate ⟨2023, 5⟩).addDays 45

/-- A reference "today" exactly 90 days past `exDue45` (2023-07-15 + 90 days
is 2023-10-13); written as a literal to keep kernel evaluation cheap. -/
def exCurrent90 : Date := ⟨2023, 10, 13⟩

/-- Month validity is checkable. -/
instance (d : Date) : Decidable (validMonthDate d) := by
  unfold validMonthDate
  exact inferInstance

/-- The single receivables row of the concrete cash-flow run below. -/
def exRecvRow : ReceivableRow :=
  ⟨"ADV_0001", ⟨2023, 5⟩, 0, "Acme Corp", ⟨2023, 7, 15⟩, 90, "90_plus_days",
    "outstanding", 0⟩

/-- The single payables row of the concrete cash-flow run below. -/
def exPayRow : PayableRow :=
  ⟨"PUB_0001", ⟨2023, 5⟩, 0, "Publisher 0001", ⟨2023, 6, 30⟩, 105, "90_plus_days",
    "paid", 0⟩

/-! Helper lemmas. -/

/-- Rounding fixes zero. -/
theorem roundTo_zero (k : ℕ) : roundTo k 0 = 0 := by
  simp [roundTo]

/-- A two-decimal rounding always produces a whole number of cents. -/
theorem isCents_roundTo_two (x : ℚ) : isCents (roundTo 2 x) := by
  refine ⟨round (x * 10 ^ 2), ?_⟩
  norm_num [roundTo]

/-- Rounding a whole number of cents to two decimals is the identity. -/
theorem roundTo_two_eq_self {x : ℚ} (h : isCents x) : roundTo 2 x = x := by
  obtain ⟨n, rfl⟩ := h
  have h1 : (n : ℚ) / 100 * 10 ^ 2 = (n : ℚ) := by
    rw [show ((10 : ℚ) ^ 2) = 100 by norm_num]
    field_simp
  rw [roundTo, h1, round_intCast, show ((10 : ℚ) ^ 2) = 100 by norm_num]

/-- Cents are closed under addition. -/
theorem isCents_add {x y : ℚ} (hx : isCents x) (hy : isCents y) : isCents (x + y) := by
  obtain ⟨a, rfl⟩ := hx
  obtain ⟨b, rfl⟩ := hy
  exact ⟨a + b, by push_cast; ring⟩

/-- A sum of whole-cent values is a whole-cent value. -/
theorem isCents_sum {l : List ℚ} (h : ∀ x ∈ l, isCents x) : isCents l.sum := by
  induction l with
  | nil => exact ⟨0, by norm_num⟩
  | cons x xs ih =>
    rw [List.sum_cons]
    exact isCents_add (h x (by simp)) (ih fun y hy => h y (by simp [hy]))

/-- Membership in the groupby keys is existence of a row with that key. -/
theorem mem_groupKeys {α κ : Type} [DecidableEq κ] {f : α → κ} {xs : List α} {k : κ} :
    k ∈ groupKeys f xs ↔ ∃ x ∈ xs, f x = k := by
  rw [groupKeys, List.mem_dedup, List.mem_map]

/-- A filtered-out won impression is an impression of the input with outcome
`'won'`. -/
theorem mem_wonImpressions {i : Impression} {l : List Impression}
    (h : i ∈ wonImpressions l) : i ∈ l ∧ i.impression_outcome = "won" := by
  have h' := List.mem_filter.mp h
  exact ⟨h'.1, by simpa using h'.2⟩

/-- Splitting the fiber of a key over a cons cell. -/
theorem fiber_cons {α κ : Type} [DecidableEq κ] [BEq κ] [LawfulBEq κ] (x : α) (xs : List α)
    (f : α → κ) (g : α → ℚ) (k : κ) :
    (((x :: xs).filter fun y => f y == k).map g).sum
      = (if f x = k then g x else 0) + ((xs.filter fun y => f y == k).map g).sum := by
  by_cases h : f x = k
  · simp [List.filter_cons, h]
  · simp [List.filter_cons, h]

/-- Over a duplicate-free key list, the sum of a one-point indicator is its
value at the point. -/
theorem sum_map_ite_of_nodup {κ : Type} [DecidableEq κ] {l : List κ} (hl : l.Nodup)
    {a : κ} (ha : a ∈ l) (c : ℚ) :
    (l.map fun k => if a = k then c else 0).sum = c := by
  induction l with
  | nil => simp at ha
  | cons x xs ih =>
    rw [List.map_cons, List.sum_cons]
    rcases List.mem_cons.mp ha with rfl | hmem
    · rw [if_pos rfl]
      have h0 : (xs.map fun k => if a = k then c else 0).sum = 0 := by
        apply List.sum_eq_zero
        intro y hy
        obtain ⟨k, hk, rfl⟩ := List.mem_map.mp hy
        have hne : ¬ a = k := by
          rintro rfl
          exact (List.nodup_cons.mp hl).1 hk
        exact if_neg hne
      rw [h0, add_zero]
    · have hax : ¬ a = x := fun h => (List.nodup_cons.mp hl).1 (h ▸ hmem)
      rw [if_neg hax, ih (List.nodup_cons.mp hl).2 hmem, zero_add]

/-- Groupby-and-sum partitions the total: summing the per-key fiber sums over
the distinct keys gives the plain sum over the table. -/
theorem sum_groups {α κ : Type} [DecidableEq κ] [BEq κ] [LawfulBEq κ]
    (xs : List α) (f : α → κ) (g : α → ℚ) :
    ((groupKeys f xs).map fun k => ((xs.filter fun x => f x == k).map g).sum).sum
      = (xs.map g).sum := by
  induction xs with
  | nil => simp [groupKeys]
  | cons x xs ih =>
    rw [groupKeys, List.map_cons] at *
    by_cases hx : f x ∈ xs.map f
    · rw [List.dedup_cons_of_mem hx]
      have step : ((xs.map f).dedup.map fun k =>
            (((x :: xs).filter fun y => f y == k).map g).sum)
          = ((xs.map f).dedup.map fun k =>
            (if f x = k then g x else 0) + ((xs.filter fun y => f y == k).map g).sum) :=
        List.map_congr_left fun k _ => fiber_cons x xs f g k
      rw [step, List.sum_map_add,
        sum_map_ite_of_nodup (List.nodup_dedup _) (List.mem_dedup.mpr hx), ih]
      simp
    · rw [List.dedup_cons_of_not_mem hx, List.map_cons, List.sum_cons]
      have h1 : ((xs.filter fun y => f y == f x).map g).sum = 0 := by
        have hnil : xs.filter (fun y => f y == f x) = [] := by
          rw [List.filter_eq_nil_iff]
          intro a ha hbeq
          exact hx ((eq_of_beq hbeq) ▸ List.mem_map_of_mem f ha)
        rw [hnil]
        simp
      have h2 : ((xs.map f).dedup.map fun k =>
            (((x :: xs).filter fun y => f y == k).map g).sum)
          = ((xs.map f).dedup.map fun k =>
            ((xs.filter fun y => f y == k).map g).sum) := by
        apply List.map_congr_left
        intro k hk
        rw [fiber_cons, if_neg, zero_add]
        exact fun h => hx (h ▸ List.mem_dedup.mp hk)
      rw [fiber_cons, if_pos rfl, h1, add_zero, h2, ih]
      simp

/-- Merging against a table in which every key finds exactly one partner
keeps sums of left-side columns. -/
theorem sum_map_mergeSingle {α β γ : Type} (xs : List α) (ys : List β)
    (p : α → β → Bool) (mk : α → β → γ) (gg : γ → ℚ) (g : α → ℚ)
    (hmk : ∀ a b, gg (mk a b) = g a)
    (h : ∀ a ∈ xs, ∃ b, ys.filter (p a) = [b]) :
    ((xs.flatMap fun a => (ys.filter (p a)).map (mk a)).map gg).sum = (xs.map g).sum := by
  induction xs with
  | nil => simp
  | cons a as ih =>
    obtain ⟨b, hb⟩ := h a (by simp)
    rw [List.flatMap_cons, List.map_append, List.sum_append, hb]
    simp only [List.map_cons, List.map_nil, List.sum_cons, List.sum_nil, hmk]
    rw [ih fun x hx => h x (by simp [hx])]
    simp

/-- A merged (impression, campaign) pair comes from the two inputs. -/
theorem mem_mergeCampaigns {q : Impression × Campaign} {won : List Impression}
    {camps : List Campaign} (h : q ∈ mergeCampaigns won camps) :
    q.1 ∈ won ∧ q.2 ∈ camps := by
  obtain ⟨i, hi, hq⟩ := List.mem_flatMap.mp h
  obtain ⟨c, hc, rfl⟩ := List.mem_map.mp hq
  exact ⟨hi, (List.mem_filter.mp hc).1⟩

/-- Every output row of the basic metrics aggregator is the computed row of a
campaign key that occurs among the won impressions. -/
theorem mem_calculate_basic_metrics {imps : List Impression} {clicks : List Click}
    {convs : List Conversion} {camps : List Campaign} {row : MetricsRow}
    (h : row ∈ calculate_basic_metrics imps clicks convs camps) :
    ∃ cid info, cid ∈ groupKeys (fun i => i.campaign_id) (wonImpressions imps) ∧
      row = basicRowCore imps clicks convs cid info := by
  obtain ⟨cid, hcid, hrow⟩ := List.mem_flatMap.mp h
  simp only [basicRowsFor] at hrow
  by_cases he : (camps.filter fun c => c.campaign_id == cid).isEmpty
  · rw [if_pos he] at hrow
    exact ⟨cid, none, hcid, by simpa using hrow⟩
  · rw [if_neg he] at hrow
    obtain ⟨c, _hc, rfl⟩ := List.mem_map.mp hrow
    exact ⟨cid, some c, hcid, rfl⟩

/-- Every output row of the pacing analysis is the computed row of a campaign
of the input that has at least one won impression. -/
theorem mem_calculate_pacing_analysis {imps : List Impression} {camps : List Campaign}
    {row : PacingRow} (h : row ∈ calculate_pacing_analysis imps camps) :
    ∃ c, c ∈ camps ∧ ¬ (pacingGroup imps c.campaign_id).isEmpty ∧
      row = pacingRowOf imps c := by
  obtain ⟨c, hc, hrow⟩ := List.mem_flatMap.mp h
  simp only [pacingRowsFor] at hrow
  by_cases he : (pacingGroup imps c.campaign_id).isEmpty
  · rw [if_pos he] at hrow
    simp at hrow
  · rw [if_neg he] at hrow
    exact ⟨c, hc, by simpa using he, by simpa using hrow⟩

/-- The pacing cumulative spend is a whole number of cents (a sum of sums of
two-decimal per-impression spends). -/
theorem isCents_pacingSpendTotal (imps : List Impression) (cid : String) :
    isCents (pacingSpendTotal imps cid) := by
  apply isCents_sum
  intro x hx
  obtain ⟨d, _, rfl⟩ := List.mem_map.mp hx
  apply isCents_sum
  intro y hy
  obtain ⟨i, _, rfl⟩ := List.mem_map.mp hy
  exact isCents_roundTo_two _

/-- The win-price sum of a campaign is a whole number of cents as soon as all
win prices are. -/
theorem isCents_winPriceSum {imps : List Impression} {cid : String}
    (hc : ∀ i ∈ imps, isCents i.win_price) : isCents (winPriceSum imps cid) := by
  apply isCents_sum
  intro x hx
  obtain ⟨i, hi, rfl⟩ := List.mem_map.mp hx
  exact hc i (mem_wonImpressions (List.mem_filter.mp hi).1).1

/-- The `end_time.date` of a valid monthly period is the last day of its
calendar month. -/
theorem endTimeDate_eq_lastDayOfMonth {p : Period} (h1 : 1 ≤ p.month)
    (h2 : p.month ≤ 12) : Period.endTimeDate p = lastDayOfMonth p := by
  obtain ⟨y, m⟩ := p
  simp only [Period.endTimeDate, lastDayOfMonth] at *
  by_cases h : m < 12
  · rw [if_pos h]
    simp only [Date.prevDay]
    rw [if_neg (by simp), if_pos (by simpa using h1)]
    simp
  · have hm : m = 12 := by omega
    subst hm
    rw [if_neg h]
    simp only [Date.prevDay]
    rw [if_neg (by simp), if_neg (by simp)]
    norm_num [daysInMonth]

/-- The aging classifier lands every day count in its intended bucket. -/
theorem agingCategory_meets_spec (d : ℤ) : agingSpec d (agingCategory d) := by
  refine ⟨fun h => ?_, fun h h' => ?_, fun h h' => ?_, fun h => ?_⟩ <;>
    simp only [agingCategory] <;> split_ifs <;> first | rfl | omega

/-- The campaign key of a basic-metrics row. -/
theorem basicRowCore_campaign_id (imps : List Impression) (clicks : List Click)
    (convs : List Conversion) (cid : String) (info : Option Campaign) :
    (basicRowCore imps clicks convs cid info).campaign_id = cid := rfl

/-- The reported impression count of a basic-metrics row. -/
theorem basicRowCore_impressions (imps : List Impression) (clicks : List Click)
    (convs : List Conversion) (cid : String) (info : Option Campaign) :
    (basicRowCore imps clicks convs cid info).impressions_served = wonCount imps cid := rfl

/-- The reported spend of a basic-metrics row: the batch-level CPM conversion
applied to the (rounded) win-price sum of the campaign group. -/
theorem basicRowCore_spend (imps : List Impression) (clicks : List Click)
    (convs : List Conversion) (cid : String) (info : Option Campaign) :
    (basicRowCore imps clicks convs cid info).spend
      = roundTo 2 (roundTo 2 (winPriceSum imps cid) * (wonCount imps cid : ℚ) / 1000) := rfl

/-- The reported effective CPM of a basic-metrics row, in terms of its own
spend and impression count. -/
theorem basicRowCore_ecpm (imps : List Impression) (clicks : List Click)
    (convs : List Conversion) (cid : String) (info : Option Campaign) :
    (basicRowCore imps clicks convs cid info).ecpm
      = roundTo 2 ((basicRowCore imps clicks convs cid info).spend /
          (((basicRowCore imps clicks convs cid info).impressions_served : ℚ) / 1000)) := rfl

/-- The CTR of a basic-metrics row, in terms of its own click and impression
counts (a percentage rounded to three decimals, with no zero guard). -/
theorem basicRowCore_ctr (imps : List Impression) (clicks : List Click)
    (convs : List Conversion) (cid : String) (info : Option Campaign) :
    (basicRowCore imps clicks convs cid info).ctr
      = roundTo 3 (((basicRowCore imps clicks convs cid info).clicks : ℚ) /
          ((basicRowCore imps clicks convs cid info).impressions_served : ℚ) * 100) := rfl

/-- The CPC of a basic-metrics row (zero-guarded, two decimals). -/
theorem basicRowCore_cpc (imps : List Impression) (clicks : List Click)
    (convs : List Conversion) (cid : String) (info : Option Campaign) :
    (basicRowCore imps clicks convs cid info).cpc
      = roundTo 2 (if 0 < (basicRowCore imps clicks convs cid info).clicks then
          (basicRowCore imps clicks convs cid info).spend /
            ((basicRowCore imps clicks convs cid info).clicks : ℚ) else 0) := rfl

/-- The CPA of a basic-metrics row (zero-guarded, two decimals). -/
theorem basicRowCore_cpa (imps : List Impression) (clicks : List Click)
    (convs : List Conversion) (cid : String) (info : Option Campaign) :
    (basicRowCore imps clicks convs cid info).cpa
      = roundTo 2 (if 0 < (basicRowCore imps clicks convs cid info).conversions then
          (basicRowCore imps clicks convs cid info).spend /
            ((basicRowCore imps clicks convs cid info).conversions : ℚ) else 0) := rfl

/-- The ROAS of a basic-metrics row (zero-guarded, two decimals). -/
theorem basicRowCore_roas (imps : List Impression) (clicks : List Click)
    (convs : List Conversion) (cid : String) (info : Option Campaign) :
    (basicRowCore imps clicks convs cid info).roas
      = roundTo 2 (if 0 < (basicRowCore imps clicks convs cid info).spend then
          (basicRowCore imps clicks convs cid info).conversion_value /
            (basicRowCore imps clicks convs cid info).spend else 0) := rfl

/-- The conversion rate of a basic-metrics row (zero-guarded percentage,
three decimals). -/
theorem basicRowCore_conversion_rate (imps : List Impression) (clicks : List Click)
    (convs : List Conversion) (cid : String) (info : Option Campaign) :
    (basicRowCore imps clicks convs cid info).conversion_rate
      = roundTo 3 (if 0 < (basicRowCore imps clicks convs cid info).clicks then
          ((basicRowCore imps clicks convs cid info).conversions : ℚ) /
            ((basicRowCore imps clicks convs cid info).clicks : ℚ) * 100 else 0) := rfl

/-- Campaign keys of the won-impressions groupby have nonempty groups. -/
theorem wonCount_pos_of_mem_groupKeys {imps : List Impression} {cid : String}
    (h : cid ∈ groupKeys (fun i => i.campaign_id) (wonImpressions imps)) :
    0 < wonCount imps cid := by
  obtain ⟨i, hi, rfl⟩ := mem_groupKeys.mp h
  have : i ∈ (wonImpressions imps).filter (fun j => j.campaign_id == i.campaign_id) :=
    List.mem_filter.mpr ⟨hi, by simp⟩
  exact List.length_pos.mpr (fun hnil => by simp [wonCount, hnil] at this)

/-- The status of a computed pacing row, as the guarded classification of the
unrounded percentages. -/
theorem pacingRowOf_status (imps : List Impression) (c : Campaign) :
    (pacingRowOf imps c).pacing_status
      = (if pacingBudgetSpentPct imps c > pacingTimeElapsedPct imps c + 10 then "ahead"
         else if pacingBudgetSpentPct imps c < pacingTimeElapsedPct imps c - 10 then "behind"
         else "on_pace") := rfl

/-- The stored (rounded) cumulative spend of a pacing row. -/
theorem pacingRowOf_total_spend (imps : List Impression) (c : Campaign) :
    (pacingRowOf imps c).total_spend
      = roundTo 2 (pacingSpendTotal imps c.campaign_id) := rfl

/-- The stored dimension and day-count columns of a pacing row. -/
theorem pacingRowOf_fields (imps : List Impression) (c : Campaign) :
    (pacingRowOf imps c).budget_total = c.budget_total ∧
    (pacingRowOf imps c).days_active = pacingDaysElapsed imps c.campaign_id ∧
    (pacingRowOf imps c).total_days = campaignDays c := ⟨rfl, rfl, rfl⟩

/-- The percentages recomputed from a pacing row's reported figures are the
unrounded percentages of the pipeline. -/
theorem pacingRow_pcts (imps : List Impression) (c : Campaign) :
    rowBudgetSpentPct (pacingRowOf imps c) = pacingBudgetSpentPct imps c ∧
    rowTimeElapsedPct (pacingRowOf imps c) = pacingTimeElapsedPct imps c := by
  constructor
  · rw [rowBudgetSpentPct, pacingRowOf_total_spend,
      roundTo_two_eq_self (isCents_pacingSpendTotal imps c.campaign_id),
      (pacingRowOf_fields imps c).1, pacingBudgetSpentPct]
  · rw [rowTimeElapsedPct, (pacingRowOf_fields imps c).2.1,
      (pacingRowOf_fields imps c).2.2, pacingTimeElapsedPct]

/-- The campaign key of a computed pacing row. -/
theorem pacingRowOf_campaign_id (imps : List Impression) (c : Campaign) :
    (pacingRowOf imps c).campaign_id = c.campaign_id := rfl

/-- C1: In the basic metrics aggregator, every output row (one per campaign
with at least one won impression) reports
`spend = roundTo 2 (win-price sum × impression count / 1000)` — the
batch-level CPM convention.  The hypothesis that win prices are whole cents
reflects the data generator (`win_price = round(..., 2)`); it makes the
aggregator's intermediate rounding of the win-price sum lossless. -/
theorem basic_metrics_spend_batch_convention
    (imps : List Impression) (clicks : List Click) (convs : List Conversion)
    (camps : List Campaign) (hc : ∀ i ∈ imps, isCents i.win_price) :
    ∀ row ∈ calculate_basic_metrics imps clicks convs camps,
      row.spend = roundTo 2 (winPriceSum imps row.campaign_id *
        (wonCount imps row.campaign_id : ℚ) / 1000) := by
  intro row hrow
  obtain ⟨cid, info, _hk, rfl⟩ := mem_calculate_basic_metrics hrow
  rw [basicRowCore_spend, basicRowCore_campaign_id,
    roundTo_two_eq_self (isCents_winPriceSum hc)]

/-- Witness for C1: the batch-convention spend equation holds at the concrete
two-impression table (3.23 CPM sum × 2 impressions / 1000, rounded, = 0.01). -/
theorem basic_metrics_spend_batch_convention_witness :
    basicRowCore [exImpA, exImpB] [] [] "CAMP_1" (some exCampaign1)
        ∈ calculate_basic_metrics [exImpA, exImpB] [] [] [exCampaign1] ∧
    (basicRowCore [exImpA, exImpB] [] [] "CAMP_1" (some exCampaign1)).spend
      = roundTo 2 (winPriceSum [exImpA, exImpB] "CAMP_1" *
          (wonCount [exImpA, exImpB] "CAMP_1" : ℚ) / 1000) := by
  have hc : ∀ i ∈ [exImpA, exImpB], isCents i.win_price := by
    intro i hi
    rcases List.mem_cons.mp hi with rfl | hi'
    · exact ⟨123, by norm_num [exImpA]⟩
    · rcases List.mem_cons.mp hi' with rfl | h0
      · exact ⟨200, by norm_num [exImpB]⟩
      · cases h0
  have hmem : basicRowCore [exImpA, exImpB] [] [] "CAMP_1" (some exCampaign1)
      ∈ calculate_basic_metrics [exImpA, exImpB] [] [] [exCampaign1] := by decide
  refine ⟨hmem, ?_⟩
  have h := basic_metrics_spend_batch_convention [exImpA, exImpB] [] [] [exCampaign1]
    hc _ hmem
  rwa [basicRowCore_campaign_id] at h

/-- C3: every pacing row is classified `ahead` exactly when its budget-spent
percentage exceeds its time-elapsed percentage by strictly more than 10
points, `behind` exactly when it trails by strictly more than 10 points, and
`on_pace` exactly on the closed band in between — so a difference of exactly
+10 or -10 is `on_pace`. -/
theorem pacing_status_strict_ten_point_band (imps : List Impression)
    (camps : List Campaign) :
    ∀ row ∈ calculate_pacing_analysis imps camps,
      (row.pacing_status = "ahead" ↔ pacingDiff row > 10) ∧
      (row.pacing_status = "behind" ↔ pacingDiff row < -10) ∧
      (row.pacing_status = "on_pace" ↔ -10 ≤ pacingDiff row ∧ pacingDiff row ≤ 10) := by
  intro row hrow
  obtain ⟨c, _hc, _hne, rfl⟩ := mem_calculate_pacing_analysis hrow
  rw [pacingDiff, (pacingRow_pcts imps c).1, (pacingRow_pcts imps c).2,
    pacingRowOf_status]
  set B := pacingBudgetSpentPct imps c with hB
  set T := pacingTimeElapsedPct imps c with hT
  by_cases h1 : B > T + 10
  · rw [if_pos h1]
    exact ⟨⟨fun _ => by linarith, fun _ => rfl⟩,
      ⟨fun hs => absurd hs (by decide), fun hlt => absurd hlt (by intro h; linarith)⟩,
      ⟨fun hs => absurd hs (by decide), fun hle => absurd hle.2 (by intro h; linarith)⟩⟩
  · rw [if_neg h1]
    have h1' : B ≤ T + 10 := not_lt.mp h1
    by_cases h2 : B < T - 10
    · rw [if_pos h2]
      exact ⟨⟨fun hs => absurd hs (by decide), fun hgt => absurd hgt (by intro h; linarith)⟩,
        ⟨fun _ => by linarith, fun _ => rfl⟩,
        ⟨fun hs => absurd hs (by decide), fun hle => absurd hle.1 (by intro h; linarith)⟩⟩
    · rw [if_neg h2]
      have h2' : T - 10 ≤ B := not_lt.mp h2
      exact ⟨⟨fun hs => absurd hs (by decide), fun hgt => absurd hgt (by intro h; linarith)⟩,
        ⟨fun hs => absurd hs (by decide), fun hlt => absurd hlt (by intro h; linarith)⟩,
        ⟨fun _ => ⟨by linarith, by linarith⟩, fun _ => rfl⟩⟩

/-- Witness for C3, at the specification's own scenario: 10,000 budget,
10-day flight, 5,000 spent over 3 days (the row is classified from a
+20-point difference). -/
theorem pacing_status_strict_ten_point_band_witness :
    pacingRowOf exPacingImps exCampaign1 ∈ calculate_pacing_analysis exPacingImps [exCampaign1] ∧
    ((pacingRowOf exPacingImps exCampaign1).pacing_status = "ahead" ↔
      pacingDiff (pacingRowOf exPacingImps exCampaign1) > 10) ∧
    ((pacingRowOf exPacingImps exCampaign1).pacing_status = "behind" ↔
      pacingDiff (pacingRowOf exPacingImps exCampaign1) < -10) ∧
    ((pacingRowOf exPacingImps exCampaign1).pacing_status = "on_pace" ↔
      -10 ≤ pacingDiff (pacingRowOf exPacingImps exCampaign1) ∧
        pacingDiff (pacingRowOf exPacingImps exCampaign1) ≤ 10) := by
  have hmem : pacingRowOf exPacingImps exCampaign1
      ∈ calculate_pacing_analysis exPacingImps [exCampaign1] := by decide
  exact ⟨hmem, pacing_status_strict_ten_point_band exPacingImps [exCampaign1] _ hmem⟩

/-- C6: a campaign with no won impression contributes no row to the basic
metrics output nor to the pacing output — it is silently dropped (both
functions are total; no error value exists in the model). -/
theorem zero_won_campaign_absent (imps : List Impression) (clicks : List Click)
    (convs : List Conversion) (camps : List Campaign) (cid : String)
    (h : ∀ i ∈ imps, i.campaign_id = cid → i.impression_outcome ≠ "won") :
    (∀ row ∈ calculate_basic_metrics imps clicks convs camps, row.campaign_id ≠ cid) ∧
    (∀ row ∈ calculate_pacing_analysis imps camps, row.campaign_id ≠ cid) := by
  have hwon : ∀ i ∈ wonImpressions imps, i.campaign_id ≠ cid := by
    intro i hi
    obtain ⟨hmem, hout⟩ := mem_wonImpressions hi
    exact fun hcid => h i hmem hcid hout
  constructor
  · intro row hrow
    obtain ⟨cid', info, hk, rfl⟩ := mem_calculate_basic_metrics hrow
    rw [basicRowCore_campaign_id]
    obtain ⟨i, hi, rfl⟩ := mem_groupKeys.mp hk
    exact hwon i hi
  · intro row hrow
    obtain ⟨c, _hc, hne, rfl⟩ := mem_calculate_pacing_analysis hrow
    rw [pacingRowOf_campaign_id]
    intro hcid
    apply hne
    have hnil : pacingGroup imps c.campaign_id = [] := by
      rw [pacingGroup, List.filter_eq_nil_iff]
      intro i hi hbeq
      exact hwon i hi (hcid ▸ eq_of_beq hbeq)
    simp [hnil]

/-- Witness for C6: `CAMP_2` has only a lost impression, and its key appears
in neither output of the concrete run. -/
theorem zero_won_campaign_absent_witness :
    "CAMP_2" ∉ (calculate_basic_metrics [exImpA, exImpLost] [] []
        [exCampaign1, exCampaign2]).map (fun r => r.campaign_id) ∧
    "CAMP_2" ∉ (calculate_pacing_analysis [exImpA, exImpLost]
        [exCampaign1, exCampaign2]).map (fun r => r.campaign_id) := by
  have h := zero_won_campaign_absent [exImpA, exImpLost] [] []
    [exCampaign1, exCampaign2] "CAMP_2" (by decide)
  constructor
  · intro hm
    obtain ⟨row, hrow, hid⟩ := List.mem_map.mp hm
    exact h.1 row hrow hid
  · intro hm
    obtain ⟨row, hrow, hid⟩ := List.mem_map.mp hm
    exact h.2 row hrow hid

/-- Counterexample for C2: with 3 impressions and 1 click the reported CTR is
`round(1/3 * 100, 3) = 33.333`, not the two-decimal rounding the claim states
(neither 33.33 as a percentage nor 0.33 as a plain ratio). -/
theorem ratio_metrics_two_decimal_counterexample :
    (calculate_basic_metrics [exImpA, exImpB, exImpC] [exClick] [] [exCampaign1]).map
        (fun r => r.ctr) = [33333/1000] ∧
    roundTo 2 ((1 : ℚ) / 3 * 100) = 3333/100 ∧
    roundTo 2 ((1 : ℚ) / 3) = 33/100 ∧
    (33333/1000 : ℚ) ≠ 3333/100 ∧ (33333/1000 : ℚ) ≠ 33/100 := by decide

/-- C2 as amended: each ratio metric of a basic-metrics row is 0 when its
denominator is 0 and the guarded ratio otherwise — CPC, CPA and ROAS rounded
to two decimals, but CTR and conversion rate are percentages rounded to THREE
decimals; CTR carries no explicit guard, its denominator being positive on
every output row. -/
theorem ratio_metrics_guards_and_rounding (imps : List Impression)
    (clicks : List Click) (convs : List Conversion) (camps : List Campaign) :
    ∀ row ∈ calculate_basic_metrics imps clicks convs camps,
      0 < row.impressions_served ∧
      row.ctr = roundTo 3 ((row.clicks : ℚ) / (row.impressions_served : ℚ) * 100) ∧
      (row.clicks = 0 → row.cpc = 0) ∧
      (0 < row.clicks → row.cpc = roundTo 2 (row.spend / (row.clicks : ℚ))) ∧
      (row.conversions = 0 → row.cpa = 0) ∧
      (0 < row.conversions → row.cpa = roundTo 2 (row.spend / (row.conversions : ℚ))) ∧
      (¬ 0 < row.spend → row.roas = 0) ∧
      (0 < row.spend → row.roas = roundTo 2 (row.conversion_value / row.spend)) ∧
      (row.clicks = 0 → row.conversion_rate = 0) ∧
      (0 < row.clicks → row.conversion_rate
        = roundTo 3 ((row.conversions : ℚ) / (row.clicks : ℚ) * 100)) := by
  intro row hrow
  obtain ⟨cid, info, hk, rfl⟩ := mem_calculate_basic_metrics hrow
  refine ⟨?_, basicRowCore_ctr imps clicks convs cid info, ?_, ?_, ?_, ?_, ?_, ?_, ?_, ?_⟩
  · rw [basicRowCore_impressions]
    exact wonCount_pos_of_mem_groupKeys hk
  · intro h0
    rw [basicRowCore_cpc, if_neg (by omega), roundTo_zero]
  · intro h0
    rw [basicRowCore_cpc, if_pos h0]
  · intro h0
    rw [basicRowCore_cpa, if_neg (by omega), roundTo_zero]
  · intro h0
    rw [basicRowCore_cpa, if_pos h0]
  · intro h0
    rw [basicRowCore_roas, if_neg h0, roundTo_zero]
  · intro h0
    rw [basicRowCore_roas, if_pos h0]
  · intro h0
    rw [basicRowCore_conversion_rate, if_neg (by omega), roundTo_zero]
  · intro h0
    rw [basicRowCore_conversion_rate, if_pos h0]

/-- Witness for the amended C2 at a concrete run with 3 impressions, 1 click
and no conversions. -/
theorem ratio_metrics_guards_and_rounding_witness :
    basicRowCore [exImpA, exImpB, exImpC] [exClick] [] "CAMP_1" (some exCampaign1)
        ∈ calculate_basic_metrics [exImpA, exImpB, exImpC] [exClick] [] [exCampaign1] ∧
    (0 < (basicRowCore [exImpA, exImpB, exImpC] [exClick] [] "CAMP_1"
        (some exCampaign1)).impressions_served ∧
      (basicRowCore [exImpA, exImpB, exImpC] [exClick] [] "CAMP_1" (some exCampaign1)).ctr
        = roundTo 3 (((basicRowCore [exImpA, exImpB, exImpC] [exClick] [] "CAMP_1"
            (some exCampaign1)).clicks : ℚ) /
          ((basicRowCore [exImpA, exImpB, exImpC] [exClick] [] "CAMP_1"
            (some exCampaign1)).impressions_served : ℚ) * 100)) := by
  have hmem : basicRowCore [exImpA, exImpB, exImpC] [exClick] [] "CAMP_1" (some exCampaign1)
      ∈ calculate_basic_metrics [exImpA, exImpB, exImpC] [exClick] [] [exCampaign1] := by
    decide
  have h := ratio_metrics_guards_and_rounding [exImpA, exImpB, exImpC] [exClick] []
    [exCampaign1] _ hmem
  exact ⟨hmem, h.1, h.2.1⟩

/-- Counterexample for C10: a single won impression at 1.23 CPM gives
`spend = round(1.23 * 1 / 1000, 2) = 0`, hence `ecpm = 0`, while the rounded
win-price sum is 1.23 — the algebraic collapse fails because spend is rounded
before the division. -/
theorem ecpm_equals_win_price_sum_counterexample :
    (calculate_basic_metrics [exImpA] [] [] [exCampaign1]).map (fun r => r.ecpm) = [0] ∧
    roundTo 2 (winPriceSum [exImpA] "CAMP_1") = 123/100 ∧
    (0 : ℚ) ≠ 123/100 := by decide

/-- C10 as amended: the reported ecpm is the ALREADY-ROUNDED spend divided by
impressions/1000, rounded again to two decimals; it equals the rounded
win-price sum only when rounding the spend loses nothing. -/
theorem ecpm_from_rounded_spend (imps : List Impression) (clicks : List Click)
    (convs : List Conversion) (camps : List Campaign) :
    ∀ row ∈ calculate_basic_metrics imps clicks convs camps,
      row.ecpm = roundTo 2 (row.spend * 1000 / (row.impressions_served : ℚ)) := by
  intro row hrow
  obtain ⟨cid, info, _hk, rfl⟩ := mem_calculate_basic_metrics hrow
  rw [basicRowCore_ecpm, div_div_eq_mul_div]

/-- Witness for the amended C10 at the one-impression table. -/
theorem ecpm_from_rounded_spend_witness :
    basicRowCore [exImpA] [] [] "CAMP_1" (some exCampaign1)
        ∈ calculate_basic_metrics [exImpA] [] [] [exCampaign1] ∧
    (basicRowCore [exImpA] [] [] "CAMP_1" (some exCampaign1)).ecpm
      = roundTo 2 ((basicRowCore [exImpA] [] [] "CAMP_1" (some exCampaign1)).spend * 1000 /
          ((basicRowCore [exImpA] [] [] "CAMP_1" (some exCampaign1)).impressions_served : ℚ)) := by
  have hmem : basicRowCore [exImpA] [] [] "CAMP_1" (some exCampaign1)
      ∈ calculate_basic_metrics [exImpA] [] [] [exCampaign1] := by decide
  exact ⟨hmem, ecpm_from_rounded_spend [exImpA] [] [] [exCampaign1] _ hmem⟩

/-- A receivables-base tuple carries the month of one of the merged won
impressions, hence a valid calendar month when all input timestamps are
valid. -/
theorem recvBase_month_valid {imps : List Impression} {camps : List Campaign}
    {advs : List Advertiser} {b : String × Period × ℚ × String}
    (hb : b ∈ recvBaseOf imps camps advs)
    (hval : ∀ i ∈ imps, validMonthDate i.timestamp) :
    1 ≤ b.2.1.month ∧ b.2.1.month ≤ 12 := by
  simp only [recvBaseOf] at hb
  obtain ⟨k, hk, hbk⟩ := List.mem_flatMap.mp hb
  obtain ⟨a, _ha, rfl⟩ := List.mem_map.mp hbk
  obtain ⟨q, hq, hkey⟩ := mem_groupKeys.mp hk
  have h1 : q.1 ∈ imps := (mem_wonImpressions (mem_mergeCampaigns hq).1).1
  have hv := hval q.1 h1
  have hk2 : k.2 = q.1.timestamp.toPeriodM := by rw [← hkey]
  show 1 ≤ k.2.month ∧ k.2.month ≤ 12
  rw [hk2]
  exact ⟨hv.1, hv.2⟩

/-- A payables-base tuple carries the month of one of the won impressions,
hence a valid calendar month when all input timestamps are valid. -/
theorem payBase_month_valid {imps : List Impression} {payoutShare : ℕ → ℚ}
    {b : String × Period × ℚ × String}
    (hb : b ∈ payBaseOf imps payoutShare)
    (hval : ∀ i ∈ imps, validMonthDate i.timestamp) :
    1 ≤ b.2.1.month ∧ b.2.1.month ≤ 12 := by
  simp only [payBaseOf] at hb
  obtain ⟨k, hk, rfl⟩ := List.mem_map.mp hb
  obtain ⟨w, hw, hkey⟩ := mem_groupKeys.mp hk
  simp only [withPayoutOf] at hw
  obtain ⟨q, hq, rfl⟩ := List.mem_map.mp hw
  have h1 : q.2 ∈ imps := (mem_wonImpressions (List.snd_mem_of_mem_enum hq)).1
  have hv := hval q.2 h1
  have hk2 : k.2 = q.2.timestamp.toPeriodM := by rw [← hkey]
  show 1 ≤ k.2.month ∧ k.2.month ≤ 12
  rw [hk2]
  exact ⟨hv.1, hv.2⟩

/-- The aging bucket of a receivables row is the classifier applied to its
own days outstanding. -/
theorem receivableRowOf_aging (cd : Date) (rs : ℕ → String)
    (p : ℕ × (String × Period × ℚ × String)) :
    (receivableRowOf cd rs p).aging_category
      = agingCategory ((receivableRowOf cd rs p).days_outstanding) := by
  simp only [receivableRowOf]

/-- The aging bucket of a payables row is the classifier applied to its own
days outstanding. -/
theorem payableRowOf_aging (cd : Date) (ps : ℕ → String)
    (p : ℕ × (String × Period × ℚ × String)) :
    (payableRowOf cd ps p).aging_category
      = agingCategory ((payableRowOf cd ps p).days_outstanding) := by
  simp only [payableRowOf]

/-- The due date and month of a receivables row. -/
theorem receivableRowOf_due (cd : Date) (rs : ℕ → String)
    (p : ℕ × (String × Period × ℚ × String)) :
    (receivableRowOf cd rs p).due_date
        = (Period.endTimeDate ((receivableRowOf cd rs p).month_year)).addDays 45 ∧
    (receivableRowOf cd rs p).month_year = p.2.2.1 := by
  constructor <;> simp only [receivableRowOf]

/-- The due date and month of a payables row. -/
theorem payableRowOf_due (cd : Date) (ps : ℕ → String)
    (p : ℕ × (String × Period × ℚ × String)) :
    (payableRowOf cd ps p).due_date
        = (Period.endTimeDate ((payableRowOf cd ps p).month_year)).addDays 30 ∧
    (payableRowOf cd ps p).month_year = p.2.2.1 := by
  constructor <;> simp only [payableRowOf]

/-- Counterexample for C4: in a concrete cash-flow run the receivables row
sits exactly 90 days outstanding and is bucketed `90_plus_days`, not the
`60_days` the claim asserts for 90. -/
theorem aging_bucket_at_ninety_counterexample :
    ((calculate_cash_flow_analysis [exImpA] [exCampaign1] [exAdvertiser1]
        exCurrent90 (fun _ => 3/4) (fun _ => "outstanding") (fun _ => "paid")).1.map
      (fun r => (r.days_outstanding, r.aging_category)))
      = [((90 : ℤ), "90_plus_days")] ∧ "90_plus_days" ≠ "60_days" := by decide

/-- C4 as amended: in every receivables and payables row the aging bucket has
inclusive upper bounds at 0, 30 and 60 days outstanding — 0 is `current`,
30 is `30_days`, 31 and 60 are `60_days`, and everything from 61 on
(so in particular 90 and 91) is `90_plus_days`. -/
theorem cash_flow_aging_buckets (imps : List Impression) (camps : List Campaign)
    (advs : List Advertiser) (current_date : Date) (payoutShare : ℕ → ℚ)
    (recvStatus payStatus : ℕ → String) :
    (∀ r ∈ (calculate_cash_flow_analysis imps camps advs current_date payoutShare
        recvStatus payStatus).1, agingSpec r.days_outstanding r.aging_category) ∧
    (∀ r ∈ (calculate_cash_flow_analysis imps camps advs current_date payoutShare
        recvStatus payStatus).2, agingSpec r.days_outstanding r.aging_category) := by
  constructor
  · intro r hr
    simp only [calculate_cash_flow_analysis, receivablesOf] at hr
    obtain ⟨p, _hp, rfl⟩ := List.mem_map.mp hr
    rw [receivableRowOf_aging]
    exact agingCategory_meets_spec _
  · intro r hr
    simp only [calculate_cash_flow_analysis, payablesOf] at hr
    obtain ⟨p, _hp, rfl⟩ := List.mem_map.mp hr
    rw [payableRowOf_aging]
    exact agingCategory_meets_spec _

/-- Witness for the amended C4: the concrete 90-days-outstanding row of the
counterexample run is classified per the amended buckets. -/
theorem cash_flow_aging_buckets_witness :
    exRecvRow ∈ (calculate_cash_flow_analysis [exImpA] [exCampaign1] [exAdvertiser1]
        exCurrent90 (fun _ => 3/4) (fun _ => "outstanding") (fun _ => "paid")).1 ∧
    exRecvRow.days_outstanding = 90 ∧ exRecvRow.aging_category = "90_plus_days" := by
  have hmem : exRecvRow ∈ (calculate_cash_flow_analysis [exImpA] [exCampaign1]
      [exAdvertiser1] exCurrent90 (fun _ => 3/4) (fun _ => "outstanding")
      (fun _ => "paid")).1 := by decide
  have h := (cash_flow_aging_buckets [exImpA] [exCampaign1] [exAdvertiser1]
    exCurrent90 (fun _ => 3/4) (fun _ => "outstanding") (fun _ => "paid")).1
    exRecvRow hmem
  exact ⟨hmem, rfl, h.2.2.2 (by decide)⟩

/-- C9: every receivables row is due 45 days after the last day of its
calendar month, every payables row 30 days after, provided the input
timestamps carry valid calendar months. -/
theorem cash_flow_due_dates (imps : List Impression) (camps : List Campaign)
    (advs : List Advertiser) (current_date : Date) (payoutShare : ℕ → ℚ)
    (recvStatus payStatus : ℕ → String)
    (hval : ∀ i ∈ imps, validMonthDate i.timestamp) :
    (∀ r ∈ (calculate_cash_flow_analysis imps camps advs current_date payoutShare
        recvStatus payStatus).1,
      r.due_date = (lastDayOfMonth r.month_year).addDays 45) ∧
    (∀ r ∈ (calculate_cash_flow_analysis imps camps advs current_date payoutShare
        recvStatus payStatus).2,
      r.due_date = (lastDayOfMonth r.month_year).addDays 30) := by
  constructor
  · intro r hr
    simp only [calculate_cash_flow_analysis, receivablesOf] at hr
    obtain ⟨q, hq, rfl⟩ := List.mem_map.mp hr
    have hv := recvBase_month_valid (List.snd_mem_of_mem_enum hq) hval
    rw [(receivableRowOf_due current_date recvStatus q).1,
      (receivableRowOf_due current_date recvStatus q).2,
      endTimeDate_eq_lastDayOfMonth hv.1 hv.2]
  · intro r hr
    simp only [calculate_cash_flow_analysis, payablesOf] at hr
    obtain ⟨q, hq, rfl⟩ := List.mem_map.mp hr
    have hv := payBase_month_valid (List.snd_mem_of_mem_enum hq) hval
    rw [(payableRowOf_due current_date payStatus q).1,
      (payableRowOf_due current_date payStatus q).2,
      endTimeDate_eq_lastDayOfMonth hv.1 hv.2]

/-- Witness for C9 at the concrete run: the May 2023 receivable is due
2023-07-15 (= 2023-05-31 + 45 days) and the payable 2023-06-30 (+30 days). -/
theorem cash_flow_due_dates_witness :
    exRecvRow ∈ (calculate_cash_flow_analysis [exImpA] [exCampaign1] [exAdvertiser1]
        exCurrent90 (fun _ => 3/4) (fun _ => "outstanding") (fun _ => "paid")).1 ∧
    exRecvRow.due_date = (lastDayOfMonth exRecvRow.month_year).addDays 45 ∧
    exPayRow ∈ (calculate_cash_flow_analysis [exImpA] [exCampaign1] [exAdvertiser1]
        exCurrent90 (fun _ => 3/4) (fun _ => "outstanding") (fun _ => "paid")).2 ∧
    exPayRow.due_date = (lastDayOfMonth exPayRow.month_year).addDays 30 := by
  have h := cash_flow_due_dates [exImpA] [exCampaign1] [exAdvertiser1]
    exCurrent90 (fun _ => 3/4) (fun _ => "outstanding") (fun _ => "paid") (by decide)
  have hm1 : exRecvRow ∈ (calculate_cash_flow_analysis [exImpA] [exCampaign1]
      [exAdvertiser1] exCurrent90 (fun _ => 3/4) (fun _ => "outstanding")
      (fun _ => "paid")).1 := by decide
  have hm2 : exPayRow ∈ (calculate_cash_flow_analysis [exImpA] [exCampaign1]
      [exAdvertiser1] exCurrent90 (fun _ => 3/4) (fun _ => "outstanding")
      (fun _ => "paid")).2 := by decide
  exact ⟨hm1, h.1 exRecvRow hm1, hm2, h.2 exPayRow hm2⟩

/-- Filtering a dimension block by channel type keeps all of it or none of
it, every row of the block carrying the same tag. -/
theorem filter_dimRows {α : Type} (ty ty' : String) (keyOf : α → String)
    (spendOf : α → ℚ) (xs : List α) :
    (dimRows ty' keyOf spendOf xs).filter (fun r => r.channel_type == ty)
      = if ty' = ty then dimRows ty' keyOf spendOf xs else [] := by
  unfold dimRows
  rw [List.filter_map]
  by_cases h : ty' = ty
  · rw [if_pos h]
    have : ((fun r : RevenueRow => r.channel_type == ty) ∘
        fun k => (⟨k, ((xs.filter fun x => keyOf x == k).map spendOf).sum, ty'⟩ : RevenueRow))
          = fun _ => true := by
      funext k
      simp [h]
    rw [this, List.filter_true]
  · rw [if_neg h]
    have : ((fun r : RevenueRow => r.channel_type == ty) ∘
        fun k => (⟨k, ((xs.filter fun x => keyOf x == k).map spendOf).sum, ty'⟩ : RevenueRow))
          = fun _ => false := by
      funext k
      simp [h]
    rw [this, List.filter_false, List.map_nil]

/-- The revenue column of one dimension block sums to the plain spend total
of the grouped table. -/
theorem sum_revenue_dimRows {α : Type} (ty : String) (keyOf : α → String)
    (spendOf : α → ℚ) (xs : List α) :
    ((dimRows ty keyOf spendOf xs).map (fun r => r.revenue)).sum
      = (xs.map spendOf).sum := by
  unfold dimRows
  rw [List.map_map]
  exact sum_groups xs keyOf spendOf

/-- The campaign merge of the industry join preserves the spend total when
every won impression matches exactly one campaign row. -/
theorem sum_mergeCampaigns_spend {won : List Impression} {camps : List Campaign}
    (hcamp : ∀ i ∈ won, (camps.filter (fun c => c.campaign_id == i.campaign_id)).length = 1) :
    ((mergeCampaigns won camps).map (fun t => impSpend t.1)).sum
      = (won.map impSpend).sum := by
  unfold mergeCampaigns
  exact sum_map_mergeSingle won camps _ _ _ impSpend (fun a b => rfl)
    (fun i hi => List.length_eq_one.mp (hcamp i hi))

/-- The advertiser merge of the industry join preserves the spend total when
every campaign matches exactly one advertiser row. -/
theorem sum_mergeAdvertisers_spend {merged : List (Impression × Campaign)}
    {advs : List Advertiser}
    (ha : ∀ q ∈ merged, (advs.filter (fun a => a.advertiser_id == q.2.advertiser_id)).length = 1) :
    ((mergeAdvertisers merged advs).map (fun t => impSpend t.1)).sum
      = (merged.map (fun q => impSpend q.1)).sum := by
  unfold mergeAdvertisers
  exact sum_map_mergeSingle merged advs _ _ _ (fun q => impSpend q.1) (fun a b => rfl)
    (fun q hq => List.length_eq_one.mp (ha q hq))

/-- C5: under referential integrity (each won impression matches exactly one
campaign row, each campaign exactly one advertiser row), the four
channel-type slices of the revenue-by-channel output each sum to the same
total: the per-impression won spend of the input. -/
theorem revenue_by_channel_partitions_total (imps : List Impression)
    (camps : List Campaign) (advs : List Advertiser)
    (hcamp : ∀ i ∈ wonImpressions imps,
      (camps.filter (fun c => c.campaign_id == i.campaign_id)).length = 1)
    (hadv : ∀ c ∈ camps,
      (advs.filter (fun a => a.advertiser_id == c.advertiser_id)).length = 1) :
    revenueTotal (calculate_revenue_by_channel imps camps advs) "device"
        = totalWonSpend imps ∧
    revenueTotal (calculate_revenue_by_channel imps camps advs) "auction"
        = totalWonSpend imps ∧
    revenueTotal (calculate_revenue_by_channel imps camps advs) "geo"
        = totalWonSpend imps ∧
    revenueTotal (calculate_revenue_by_channel imps camps advs) "industry"
        = totalWonSpend imps := by
  have hadv' : ∀ q ∈ mergeCampaigns (wonImpressions imps) camps,
      (advs.filter (fun a => a.advertiser_id == q.2.advertiser_id)).length = 1 :=
    fun q hq => hadv q.2 (mem_mergeCampaigns hq).2
  have key : ∀ ty : String,
      revenueTotal (calculate_revenue_by_channel imps camps advs) ty
        = (((dimRows "device" (fun i : Impression => i.device_type) impSpend
              (wonImpressions imps)).filter (fun r : RevenueRow => r.channel_type == ty)
            ++ (dimRows "auction" (fun i : Impression => i.auction_type) impSpend
              (wonImpressions imps)).filter (fun r : RevenueRow => r.channel_type == ty)
            ++ (dimRows "geo" (fun i : Impression => i.geo_country) impSpend
              (wonImpressions imps)).filter (fun r : RevenueRow => r.channel_type == ty)
            ++ (dimRows "industry"
              (fun t : Impression × Campaign × Advertiser => t.2.2.industry)
              (fun t : Impression × Campaign × Advertiser => impSpend t.1)
              (mergeAdvertisers (mergeCampaigns (wonImpressions imps) camps) advs)).filter
                (fun r : RevenueRow => r.channel_type == ty)).map
              (fun r : RevenueRow => r.revenue)).sum := by
    intro ty
    simp only [revenueTotal, calculate_revenue_by_channel]
    rw [List.filter_append, List.filter_append, List.filter_append]
  refine ⟨?_, ?_, ?_, ?_⟩
  · rw [key, filter_dimRows, filter_dimRows, filter_dimRows, filter_dimRows,
      if_pos rfl, if_neg (by decide), if_neg (by decide), if_neg (by decide)]
    simp only [List.append_nil]
    rw [sum_revenue_dimRows]
    rfl
  · rw [key, filter_dimRows, filter_dimRows, filter_dimRows, filter_dimRows,
      if_neg (by decide), if_pos rfl, if_neg (by decide), if_neg (by decide)]
    simp only [List.nil_append, List.append_nil]
    rw [sum_revenue_dimRows]
    rfl
  · rw [key, filter_dimRows, filter_dimRows, filter_dimRows, filter_dimRows,
      if_neg (by decide), if_neg (by decide), if_pos rfl, if_neg (by decide)]
    simp only [List.nil_append, List.append_nil]
    rw [sum_revenue_dimRows]
    rfl
  · rw [key, filter_dimRows, filter_dimRows, filter_dimRows, filter_dimRows,
      if_neg (by decide), if_neg (by decide), if_neg (by decide), if_pos rfl]
    simp only [List.nil_append]
    rw [sum_revenue_dimRows, sum_mergeAdvertisers_spend hadv',
      sum_mergeCampaigns_spend hcamp]
    rfl

/-- Witness for C5 at a concrete two-impression table with intact joins (the
referential-integrity hypotheses hold there by computation). -/
theorem revenue_by_channel_partitions_total_witness :
    revenueTotal (calculate_revenue_by_channel [exImpA, exImpB] [exCampaign1]
        [exAdvertiser1]) "device" = totalWonSpend [exImpA, exImpB] ∧
    revenueTotal (calculate_revenue_by_channel [exImpA, exImpB] [exCampaign1]
        [exAdvertiser1]) "auction" = totalWonSpend [exImpA, exImpB] ∧
    revenueTotal (calculate_revenue_by_channel [exImpA, exImpB] [exCampaign1]
        [exAdvertiser1]) "geo" = totalWonSpend [exImpA, exImpB] ∧
    revenueTotal (calculate_revenue_by_channel [exImpA, exImpB] [exCampaign1]
        [exAdvertiser1]) "industry" = totalWonSpend [exImpA, exImpB] :=
  revenue_by_channel_partitions_total [exImpA, exImpB] [exCampaign1] [exAdvertiser1]
    (by decide) (by decide)

/-- Counterexample for C7: margin analysis changes with the uniform draw
stream, and the receivables table changes with the current date — neither is
a function of the input tables alone. -/
theorem aggregation_purity_counterexample :
    calculate_margin_analysis [exImpA] [exCampaign1] (fun _ => 7/10)
      ≠ calculate_margin_analysis [exImpA] [exCampaign1] (fun _ => 3/4) ∧
    (calculate_cash_flow_analysis [exImpA] [exCampaign1] [exAdvertiser1] exCurrent90
        (fun _ => 3/4) (fun _ => "outstanding") (fun _ => "paid")).1
      ≠ (calculate_cash_flow_analysis [exImpA] [exCampaign1] [exAdvertiser1]
        ⟨2023, 10, 14⟩ (fun _ => 3/4) (fun _ => "outstanding") (fun _ => "paid")).1 := by
  decide

/-- C7 as amended: the basic-metrics, revenue-by-channel and pacing
aggregators are pure functions of their input tables (equal inputs give equal
outputs, no random or clock dependence exists in their model); margin
analysis additionally depends on the uniform draw stream, and cash-flow
analysis on the current date. -/
theorem aggregation_determinism_split :
    (∀ (i₁ i₂ : List Impression) (c₁ c₂ : List Click) (v₁ v₂ : List Conversion)
        (m₁ m₂ : List Campaign), i₁ = i₂ → c₁ = c₂ → v₁ = v₂ → m₁ = m₂ →
      calculate_basic_metrics i₁ c₁ v₁ m₁ = calculate_basic_metrics i₂ c₂ v₂ m₂) ∧
    (∀ (i₁ i₂ : List Impression) (m₁ m₂ : List Campaign) (a₁ a₂ : List Advertiser),
      i₁ = i₂ → m₁ = m₂ → a₁ = a₂ →
      calculate_revenue_by_channel i₁ m₁ a₁ = calculate_revenue_by_channel i₂ m₂ a₂) ∧
    (∀ (i₁ i₂ : List Impression) (m₁ m₂ : List Campaign), i₁ = i₂ → m₁ = m₂ →
      calculate_pacing_analysis i₁ m₁ = calculate_pacing_analysis i₂ m₂) ∧
    (∃ d₁ d₂ : ℕ → ℚ, calculate_margin_analysis [exImpA] [exCampaign1] d₁
        ≠ calculate_margin_analysis [exImpA] [exCampaign1] d₂) ∧
    (∃ t₁ t₂ : Date,
      (calculate_cash_flow_analysis [exImpA] [exCampaign1] [exAdvertiser1] t₁
        (fun _ => 3/4) (fun _ => "outstanding") (fun _ => "paid")).1
      ≠ (calculate_cash_flow_analysis [exImpA] [exCampaign1] [exAdvertiser1] t₂
        (fun _ => 3/4) (fun _ => "outstanding") (fun _ => "paid")).1) := by
  refine ⟨?_, ?_, ?_,
    ⟨fun _ => 7/10, fun _ => 3/4, by decide⟩,
    ⟨exCurrent90, ⟨2023, 10, 14⟩, by decide⟩⟩
  · intro i₁ i₂ c₁ c₂ v₁ v₂ m₁ m₂ hi hc hv hm
    rw [hi, hc, hv, hm]
  · intro i₁ i₂ m₁ m₂ a₁ a₂ hi hm ha
    rw [hi, hm, ha]
  · intro i₁ i₂ m₁ m₂ hi hm
    rw [hi, hm]

/-- Witness for the amended C7: determinism instantiated at a concrete run. -/
theorem aggregation_determinism_split_witness :
    calculate_basic_metrics [exImpA] [exClick] [] [exCampaign1]
      = calculate_basic_metrics [exImpA] [exClick] [] [exCampaign1] :=
  aggregation_determinism_split.1 [exImpA] [exImpA] [exClick] [exClick] [] []
    [exCampaign1] [exCampaign1] rfl rfl rfl rfl

/-- C8: under the explicit-heap reading, every `calculate_*` function returns
the five source tables exactly as it received them: the source's only writes
target frames freshly created inside the call (`.copy()` of the filtered
impressions and newly derived frames), never the argument tables. -/
theorem calculate_functions_leave_heap_unchanged (h : Heap) (draw : ℕ → ℚ)
    (payoutShare : ℕ → ℚ) (current_date : Date) (recvStatus payStatus : ℕ → String) :
    (basicMetricsHeap h).2 = h ∧ (revenueByChannelHeap h).2 = h ∧
    (marginAnalysisHeap h draw).2 = h ∧ (pacingAnalysisHeap h).2 = h ∧
    (cashFlowHeap h current_date payoutShare recvStatus payStatus).2 = h :=
  ⟨rfl, rfl, rfl, rfl, rfl⟩
